import Mathlib

/-!
Verification of the multi-source solution-search frontend of the
BMW lessons-learned repository.

The embedding follows the TypeScript sources:
  - `frontend/src/types/solutionSearch.ts` (data model),
  - `frontend/src/services/solutionSearchService.ts` (`pollSearchStatus`),
  - `frontend/src/components/SearchProgress.tsx` (progress projection),
  - `frontend/src/components/SolutionSearchForm.tsx` (zod schema),
  - `frontend/src/components/SearchResults.tsx` (`renderResult`),
  - `frontend/src/services/fileService.ts` (`validateFile`, `validateFiles`).
The backend orchestrator and aggregator are not part of the frontend
sources; where a claim is about them they are modelled from the spec and
the definition says so in its doc comment.
-/

/-- From types/solutionSearch.ts: the three search backends. -/
inductive SearchSource where
  | database
  | rag
  | web
deriving DecidableEq, Repr

/-- From types/solutionSearch.ts: the overall search status. -/
inductive SearchStatus where
  | searching
  | completed
  | failed
deriving DecidableEq, Repr

/-- From types/solutionSearch.ts: the optional metadata of a result. -/
structure ResultMetadata where
  incident_id : Option Nat
  created_at : Option String
  department : Option String
  severity : Option String
deriving DecidableEq, Repr

/-- From types/solutionSearch.ts: a single search result. -/
structure SearchResult where
  source : SearchSource
  title : String
  description : String
  relevance_score : Rat
  solution : Option String
  url : Option String
  metadata : Option ResultMetadata
deriving DecidableEq, Repr

/-- From types/solutionSearch.ts: the per-source progress block of a
status response. -/
structure SearchProgressInfo where
  database_completed : Bool
  rag_completed : Bool
  web_completed : Bool
  total_sources : Nat
  completed_sources : Nat
deriving DecidableEq, Repr

/-- From types/solutionSearch.ts: the status-poll response. -/
structure SearchStatusResponse where
  search_id : Nat
  status : SearchStatus
  progress : SearchProgressInfo
  estimated_completion_time : Option Nat
deriving DecidableEq, Repr

/-- From types/solutionSearch.ts: the aggregated search response. -/
structure SolutionSearchResponse where
  search_id : Nat
  status : SearchStatus
  results : List SearchResult
  summary : String
  confidence_score : Rat
  search_progress : Option SearchProgressInfo
deriving DecidableEq, Repr

/-- JavaScript truthiness of an optional string (`undefined` and the
empty string are falsy). -/
def optStringTruthy : Option String → Bool
  | none => false
  | some s => !(s == "")

/-- From SearchResults.tsx, `renderResult`: the suggested-solution block
is rendered exactly when `result.solution && result.source !== "web"`. -/
def rendersSolutionSection (r : SearchResult) : Bool :=
  optStringTruthy r.solution && !(r.source == SearchSource.web)

/-- From types/solutionSearch.ts: the form data of the solution-search
form; the severity is kept as a string so the zod enumeration check is
part of the validation. -/
structure SolutionSearchFormData where
  problem_description : String
  department : String
  severity : String
  reporter_name : String
deriving DecidableEq, Repr

/-- From SolutionSearchForm.tsx: the severity levels accepted by the
zod enumeration. -/
def severityValues : List String :=
  ["low", "medium", "high", "critical"]

/-- From SolutionSearchForm.tsx, `solutionSearchSchema`: the zod object
schema; `min n` on a string demands length at least `n` and `max n`
length at most `n`. -/
def solutionSearchSchema (d : SolutionSearchFormData) : Bool :=
  decide (10 ≤ d.problem_description.length) &&
  decide (d.problem_description.length ≤ 1000) &&
  decide (1 ≤ d.department.length) &&
  severityValues.contains d.severity &&
  decide (2 ≤ d.reporter_name.length) &&
  decide (d.reporter_name.length ≤ 100)

/-- From types/solutionSearch.ts: the body of the submit request. -/
structure SolutionSearchRequest where
  problem_description : String
  department : String
  severity : String
  reporter_name : String
deriving DecidableEq, Repr

/-- From SolutionSearchForm.tsx and pages/SolutionSearch.tsx: the form
only invokes `onSubmit` (which posts the submit request) on data that
passes the zod resolver, and the submit button is disabled while the
form is invalid; invalid data therefore never produces a request. -/
def submitSolutionSearch (d : SolutionSearchFormData) : Option SolutionSearchRequest :=
  if solutionSearchSchema d then
    some ⟨d.problem_description, d.department, d.severity, d.reporter_name⟩
  else
    none

/-- From fileService.ts: the shape of a browser `File` as far as the
validators inspect it. -/
structure JsFile where
  name : String
  size : Nat
  type : String
deriving DecidableEq, Repr

/-- From fileService.ts: the default allowed MIME types. -/
def defaultAllowedTypes : List String :=
  ["image/jpeg", "image/png", "application/pdf"]

/-- From fileService.ts: the default maximum file size (10 MB). -/
def defaultMaxSize : Nat := 10 * 1024 * 1024

/-- From fileService.ts: the default maximum number of files. -/
def defaultMaxFiles : Nat := 5

/-- From fileService.ts, `validateFile`: rejects a file strictly larger
than `maxSize`, then a file whose MIME type is not allowed. -/
def validateFile (file : JsFile) (maxSize : Nat) (allowedTypes : List String) :
    Bool × Option String :=
  if maxSize < file.size then
    (false, some ("File size exceeds maximum allowed size (" ++
      toString (maxSize / 1024 / 1024) ++ "MB)"))
  else if !(allowedTypes.contains file.type) then
    (false, some ("File type not allowed. Allowed types: " ++
      String.intercalate ", " allowedTypes))
  else
    (true, none)

/-- From fileService.ts, `validateFiles`: the per-file step of the error
accumulation (`errors.push` happens when the file fails validation and
carries an error message). -/
def fileErrorStep (maxSize : Nat) (allowedTypes : List String)
    (errs : List String) (file : JsFile) : List String :=
  match validateFile file maxSize allowedTypes with
  | (false, some e) => errs ++ [file.name ++ ": " ++ e]
  | _ => errs

/-- From fileService.ts, `validateFiles`: with more than `maxFiles`
files only the count error is reported; otherwise each file is checked
and the list is valid when no errors were collected. -/
def validateFiles (files : List JsFile) (maxFiles : Nat) (maxSize : Nat)
    (allowedTypes : List String) : Bool × List String :=
  if maxFiles < files.length then
    (false, ["Maximum " ++ toString maxFiles ++ " files allowed"])
  else
    let errors := files.foldl (fileErrorStep maxSize allowedTypes) []
    (errors.length == 0, errors)

/-- From SearchProgress.tsx: one entry of `searchSources`, restricted to
the fields the computations read (`id`, `estimatedTime`, `completed`). -/
structure SourceEntry where
  id : String
  estimatedTime : Nat
  completed : Bool
deriving DecidableEq, Repr

/-- From SearchProgress.tsx, `searchSources`: the three sources with
their fixed expected durations in seconds, initially not completed. -/
def searchSources : List SourceEntry :=
  [⟨"database", 3, false⟩, ⟨"rag", 4, false⟩, ⟨"web", 6, false⟩]

/-- From SearchProgress.tsx: the lookup
`status?.progress[source.id ++ "_completed"] || false`. -/
def progressOf (p : SearchProgressInfo) (id : String) : Bool :=
  if id == "database" then p.database_completed
  else if id == "rag" then p.rag_completed
  else if id == "web" then p.web_completed
  else false

/-- From SearchProgress.tsx, `updatedSources`: `searchSources` with the
completion flags taken from the status response. -/
def updatedSources (p : SearchProgressInfo) : List SourceEntry :=
  searchSources.map (fun s => { s with completed := progressOf p s.id })

/-- From SearchProgress.tsx, `getCurrentSourceIndex`: the first
not-yet-completed source, `-1` when all are completed. -/
def getCurrentSourceIndex (p : SearchProgressInfo) : Int :=
  match (updatedSources p).findIdx? (fun s => !s.completed) with
  | some i => (i : Int)
  | none => -1

/-- From SearchProgress.tsx, `completedSources`. -/
def completedSources (p : SearchProgressInfo) : Nat :=
  ((updatedSources p).filter (fun s => s.completed)).length

/-- From SearchProgress.tsx, `progressPercentage`: completed fraction of
the sources plus a partial contribution of the current source, the
latter capped at 100 before being divided by the number of sources. -/
def progressPercentage (p : SearchProgressInfo) (elapsedTime : Nat) : Rat :=
  let sources := updatedSources p
  let base : Rat := ((completedSources p : Rat) / (sources.length : Rat)) * 100
  let idx := getCurrentSourceIndex p
  if 0 ≤ idx ∧ idx < (sources.length : Int) then
    match sources[idx.toNat]? with
    | some currentSource =>
        base + (min (((elapsedTime : Rat) / (currentSource.estimatedTime : Rat)) * 100) 100) / 3
    | none => base
  else
    base

/-- From SearchProgress.tsx, `estimatedTotalTime`: the reduce
`source.completed then total else total + source.estimatedTime` over the
updated sources, starting from 0. -/
def estimatedTotalTime (p : SearchProgressInfo) : Nat :=
  (updatedSources p).foldl
    (fun total source => if source.completed then total else total + source.estimatedTime) 0

/-- From SearchProgress.tsx, `pollStatus`: the reaction of one polling
tick. -/
inductive ProgressAction where
  | complete
  | errorMsg (m : String)
  | keepPolling
deriving DecidableEq, Repr

/-- From SearchProgress.tsx, `pollStatus`: a successful status fetch
triggers `onComplete` on `completed` and `onError "Search failed"` on
`failed`; a fetch error triggers `onError` with the error message. -/
def pollStatusStep (reply : Except String SearchStatusResponse) : ProgressAction :=
  match reply with
  | .error e => .errorMsg e
  | .ok s =>
      match s.status with
      | .completed => .complete
      | .failed => .errorMsg "Search failed"
      | .searching => .keepPolling

/-- From solutionSearchService.ts: the outcome of one `getSearchStatus`
call as seen by `pollSearchStatus` — either a status response or a
thrown transport error. -/
inductive ApiReply where
  | ok (s : SearchStatusResponse)
  | transportError (msg : String)
deriving DecidableEq, Repr

/-- From solutionSearchService.ts, `pollSearchStatus`: the final outcome
— the aggregated response returned by `getSearchResults`, or a thrown
error message. -/
inductive PollOutcome where
  | success (r : SolutionSearchResponse)
  | thrown (msg : String)
deriving DecidableEq, Repr

/-- Instrumented result of the polling loop: outcome, number of
`getSearchStatus` calls, number of `setTimeout` waits and the total
waited milliseconds. -/
structure PollResult where
  outcome : PollOutcome
  queries : Nat
  waits : Nat
  waitMs : Nat
deriving DecidableEq, Repr

/-- From solutionSearchService.ts, `pollSearchStatus`: the while loop.
`statusReply i` is what `getSearchStatus` does on the iteration with
counter value `i`; `resultsReply i` is what `getSearchResults` does
there. A response with status `failed` makes the loop throw
`"Search failed"`, which its own catch block swallows and retries unless
this is the last attempt; the same catch handles transport errors and
result-fetch errors. Leaving the loop throws the timeout error. -/
def pollAux (statusReply : Nat → ApiReply)
    (resultsReply : Nat → Except String SolutionSearchResponse)
    (maxAttempts intervalMs attempts : Nat) : PollResult :=
  if attempts < maxAttempts then
    match statusReply attempts with
    | .transportError e =>
        if attempts = maxAttempts - 1 then ⟨.thrown e, 1, 0, 0⟩
        else
          let r := pollAux statusReply resultsReply maxAttempts intervalMs (attempts + 1)
          ⟨r.outcome, r.queries + 1, r.waits + 1, r.waitMs + intervalMs⟩
    | .ok s =>
        match s.status with
        | .completed =>
            match resultsReply attempts with
            | .ok resp => ⟨.success resp, 1, 0, 0⟩
            | .error e =>
                if attempts = maxAttempts - 1 then ⟨.thrown e, 1, 0, 0⟩
                else
                  let r := pollAux statusReply resultsReply maxAttempts intervalMs (attempts + 1)
                  ⟨r.outcome, r.queries + 1, r.waits + 1, r.waitMs + intervalMs⟩
        | .failed =>
            if attempts = maxAttempts - 1 then ⟨.thrown "Search failed", 1, 0, 0⟩
            else
              let r := pollAux statusReply resultsReply maxAttempts intervalMs (attempts + 1)
              ⟨r.outcome, r.queries + 1, r.waits + 1, r.waitMs + intervalMs⟩
        | .searching =>
            let r := pollAux statusReply resultsReply maxAttempts intervalMs (attempts + 1)
            ⟨r.outcome, r.queries + 1, r.waits + 1, r.waitMs + intervalMs⟩
  else
    ⟨.thrown "Search timeout - please try again.", 0, 0, 0⟩
termination_by maxAttempts - attempts
decreasing_by all_goals omega

/-- From solutionSearchService.ts: the default attempt budget. -/
def defaultMaxAttempts : Nat := 30

/-- From solutionSearchService.ts: the default polling interval in
milliseconds. -/
def defaultIntervalMs : Nat := 2000

/-- From solutionSearchService.ts, `pollSearchStatus` with the default
parameters (`maxAttempts = 30`, `intervalMs = 2000`, counter from 0). -/
def pollSearchStatus (statusReply : Nat → ApiReply)
    (resultsReply : Nat → Except String SolutionSearchResponse) : PollResult :=
  pollAux statusReply resultsReply defaultMaxAttempts defaultIntervalMs 0

/-- Modelled from the spec: the backend Aggregator is not among the
frontend sources; §4.4 defines the confidence score as the relevance of
the top-ranked merged result discounted by the fraction of sources that
succeeded, `topScore * (successfulSources / 3)`. -/
def confidenceScore (topMergedRelevance : Rat) (successfulSources : Nat) : Rat :=
  topMergedRelevance * ((successfulSources : Rat) / 3)

/-- Modelled from the spec (§3): the per-source state of a search
record, written exactly once by that source's adapter task. -/
inductive SourceState where
  | pending
  | done
  | errored
deriving DecidableEq, Repr

/-- Modelled from the spec (§3): the mutable search record, restricted
to the status and the three per-source states. -/
structure SearchRecord where
  status : SearchStatus
  database : SourceState
  rag : SourceState
  web : SourceState
deriving DecidableEq, Repr

/-- A source state is terminal when it is `done` or `errored`. -/
def SourceState.terminal : SourceState → Prop :=
  fun s => s ≠ SourceState.pending

/-- All three per-source states of a record are terminal. -/
def allTerminal (r : SearchRecord) : Prop :=
  r.database.terminal ∧ r.rag.terminal ∧ r.web.terminal

/-- At least one source of the record succeeded. -/
def someDone (r : SearchRecord) : Prop :=
  r.database = SourceState.done ∨ r.rag = SourceState.done ∨ r.web = SourceState.done

/-- All three sources of the record errored. -/
def allErrored (r : SearchRecord) : Prop :=
  r.database = SourceState.errored ∧ r.rag = SourceState.errored ∧ r.web = SourceState.errored

/-- Modelled from the spec (§4.1, §5): the backend Orchestrator is not
among the frontend sources; during the active phase each adapter task
writes its own source state exactly once, and the guarded finalize
transition sets the status to `completed` (at least one source done) or
`failed` (all errored), while the hard ceiling forces `failed` when not
all sources have terminated in time. Every transition requires
`status = searching`, so terminal statuses admit no step at all. -/
inductive searchStep : SearchRecord → SearchRecord → Prop where
  | databaseDone (r : SearchRecord) :
      r.status = SearchStatus.searching → r.database = SourceState.pending →
      searchStep r { r with database := SourceState.done }
  | databaseErrored (r : SearchRecord) :
      r.status = SearchStatus.searching → r.database = SourceState.pending →
      searchStep r { r with database := SourceState.errored }
  | ragDone (r : SearchRecord) :
      r.status = SearchStatus.searching → r.rag = SourceState.pending →
      searchStep r { r with rag := SourceState.done }
  | ragErrored (r : SearchRecord) :
      r.status = SearchStatus.searching → r.rag = SourceState.pending →
      searchStep r { r with rag := SourceState.errored }
  | webDone (r : SearchRecord) :
      r.status = SearchStatus.searching → r.web = SourceState.pending →
      searchStep r { r with web := SourceState.done }
  | webErrored (r : SearchRecord) :
      r.status = SearchStatus.searching → r.web = SourceState.pending →
      searchStep r { r with web := SourceState.errored }
  | finalizeCompleted (r : SearchRecord) :
      r.status = SearchStatus.searching → allTerminal r → someDone r →
      searchStep r { r with status := SearchStatus.completed }
  | finalizeFailed (r : SearchRecord) :
      r.status = SearchStatus.searching → allErrored r →
      searchStep r { r with status := SearchStatus.failed }
  | hardTimeout (r : SearchRecord) :
      r.status = SearchStatus.searching → ¬ allTerminal r →
      searchStep r { r with status := SearchStatus.failed }

/-- Modelled from the spec (§4.1): the record as created by `submit` —
status `searching`, all sources `pending`. -/
def initRecord : SearchRecord :=
  ⟨SearchStatus.searching, SourceState.pending, SourceState.pending, SourceState.pending⟩

/-- Reachability of a record from the initial record through
orchestrator steps. -/
def reachableRecord (r : SearchRecord) : Prop :=
  Relation.ReflTransGen searchStep initRecord r

/-- C1: a result view from the web source never displays the solution
text section, even when the result carries a solution field; a rendered
solution section implies the result is from the database or knowledge
base source and carries a solution. -/
theorem renderResult_solution_policy :
    (∀ r : SearchResult, r.source = SearchSource.web →
      rendersSolutionSection r = false) ∧
    (∀ r : SearchResult, rendersSolutionSection r = true →
      (r.source = SearchSource.database ∨ r.source = SearchSource.rag) ∧
        r.solution.isSome = true) := by
  constructor
  · intro r h
    simp [rendersSolutionSection, h]
  · intro r h
    rw [rendersSolutionSection, Bool.and_eq_true] at h
    obtain ⟨hsol, hsrc⟩ := h
    constructor
    · cases hs : r.source
      · exact Or.inl rfl
      · exact Or.inr rfl
      · rw [hs] at hsrc
        simp at hsrc
    · cases ho : r.solution
      · rw [ho] at hsol
        simp [optStringTruthy] at hsol
      · rfl

/-- Witness for C1 at concrete results: a web result carrying a solution
field renders no solution section, and a database result that renders
the section is from the database source and carries a solution. -/
theorem renderResult_solution_policy_witness :
    rendersSolutionSection
      ⟨SearchSource.web, "t", "d", 1, some "fix", some "u", none⟩ = false ∧
    (((⟨SearchSource.database, "t", "d", 1, some "fix", none, none⟩ :
        SearchResult).source = SearchSource.database ∨
      (⟨SearchSource.database, "t", "d", 1, some "fix", none, none⟩ :
        SearchResult).source = SearchSource.rag) ∧
      (⟨SearchSource.database, "t", "d", 1, some "fix", none, none⟩ :
        SearchResult).solution.isSome = true) :=
  ⟨renderResult_solution_policy.1 _ rfl,
   renderResult_solution_policy.2 _ (by decide)⟩

/-- C4: a problem description shorter than 10 characters fails the zod
schema and the form issues no submit request. -/
theorem solutionSearchSchema_min_length :
    ∀ d : SolutionSearchFormData, d.problem_description.length < 10 →
      solutionSearchSchema d = false ∧ submitSolutionSearch d = none := by
  intro d h
  have h10 : ¬ (10 ≤ d.problem_description.length) := by omega
  have hs : solutionSearchSchema d = false := by
    simp [solutionSearchSchema, h10]
  exact ⟨hs, by simp [submitSolutionSearch, hs]⟩

/-- Witness for C4: a problem description of length 5 is rejected before
submission. -/
theorem solutionSearchSchema_min_length_witness :
    solutionSearchSchema ⟨"abcde", "IT", "low", "Alice"⟩ = false ∧
    submitSolutionSearch ⟨"abcde", "IT", "low", "Alice"⟩ = none :=
  solutionSearchSchema_min_length ⟨"abcde", "IT", "low", "Alice"⟩ (by decide)

/-- C9: the schema also enforces upper bounds — a problem description
longer than 1000 characters, or a reporter name shorter than 2 or longer
than 100 characters, fails validation and no submit request is issued. -/
theorem solutionSearchSchema_upper_bounds :
    ∀ d : SolutionSearchFormData,
      (1000 < d.problem_description.length ∨
        d.reporter_name.length < 2 ∨ 100 < d.reporter_name.length) →
      solutionSearchSchema d = false ∧ submitSolutionSearch d = none := by
  intro d h
  have hs : solutionSearchSchema d = false := by
    rcases h with h | h | h
    · have hx : ¬ (d.problem_description.length ≤ 1000) := by omega
      simp [solutionSearchSchema, hx]
    · have hx : ¬ (2 ≤ d.reporter_name.length) := by omega
      simp [solutionSearchSchema, hx]
    · have hx : ¬ (d.reporter_name.length ≤ 100) := by omega
      simp [solutionSearchSchema, hx]
  exact ⟨hs, by simp [submitSolutionSearch, hs]⟩

/-- Witness for C9: a reporter name of length 1 is rejected before
submission. -/
theorem solutionSearchSchema_upper_bounds_witness :
    solutionSearchSchema ⟨"a sufficiently long problem", "IT", "low", "x"⟩ = false ∧
    submitSolutionSearch ⟨"a sufficiently long problem", "IT", "low", "x"⟩ = none :=
  solutionSearchSchema_upper_bounds ⟨"a sufficiently long problem", "IT", "low", "x"⟩
    (Or.inr (Or.inl (by decide)))

/-- C5: the estimated remaining time is the sum of the fixed expected
durations (3 s database, 4 s knowledge base, 6 s web) over exactly the
sources not yet completed; being a natural number it is non-negative,
and it is 0 once all three sources are completed. -/
theorem estimatedTotalTime_spec :
    (∀ p : SearchProgressInfo,
      estimatedTotalTime p =
        (if p.database_completed then 0 else 3) +
        (if p.rag_completed then 0 else 4) +
        (if p.web_completed then 0 else 6)) ∧
    (∀ p : SearchProgressInfo,
      estimatedTotalTime
        { p with database_completed := true, rag_completed := true,
                 web_completed := true } = 0) := by
  constructor
  · intro p
    rcases p with ⟨b1, b2, b3, t, c⟩
    cases b1 <;> cases b2 <;> cases b3 <;> rfl
  · intro p
    rcases p with ⟨b1, b2, b3, t, c⟩
    rfl

/-- C6: the confidence score is the top merged relevance discounted by
the fraction of successful sources: with all three sources succeeding it
equals the top merged relevance, and with exactly one source errored it
equals the top merged relevance times 2/3. -/
theorem confidenceScore_penalty :
    ∀ t : Rat, confidenceScore t 3 = t ∧ confidenceScore t 2 = t * (2 / 3) := by
  intro t
  constructor
  · unfold confidenceScore
    norm_num
  · unfold confidenceScore
    norm_num

/-- C7: every orchestrator transition starts from status `searching`
(so `completed` and `failed` are absorbing and the status never
reverses), a transition only keeps the status or moves it to `completed`
or `failed`, and a reachable record is never observed as `completed`
before all three per-source states are terminal (with at least one
done). -/
theorem searchRecord_status_monotonic :
    (∀ a b : SearchRecord, searchStep a b →
      a.status = SearchStatus.searching ∧
      (b.status = a.status ∨ b.status = SearchStatus.completed ∨
        b.status = SearchStatus.failed)) ∧
    (∀ r : SearchRecord, reachableRecord r →
      r.status = SearchStatus.completed → allTerminal r ∧ someDone r) := by
  constructor
  · intro a b h
    cases h with
    | databaseDone h1 h2 => exact ⟨h1, Or.inl rfl⟩
    | databaseErrored h1 h2 => exact ⟨h1, Or.inl rfl⟩
    | ragDone h1 h2 => exact ⟨h1, Or.inl rfl⟩
    | ragErrored h1 h2 => exact ⟨h1, Or.inl rfl⟩
    | webDone h1 h2 => exact ⟨h1, Or.inl rfl⟩
    | webErrored h1 h2 => exact ⟨h1, Or.inl rfl⟩
    | finalizeCompleted h1 h2 h3 => exact ⟨h1, Or.inr (Or.inl rfl)⟩
    | finalizeFailed h1 h2 => exact ⟨h1, Or.inr (Or.inr rfl)⟩
    | hardTimeout h1 h2 => exact ⟨h1, Or.inr (Or.inr rfl)⟩
  · intro r hr
    induction hr with
    | refl =>
        intro h
        simp [initRecord] at h
    | tail hab hbc ih =>
        intro hc
        cases hbc with
        | databaseDone h1 h2 => simp [h1] at hc
        | databaseErrored h1 h2 => simp [h1] at hc
        | ragDone h1 h2 => simp [h1] at hc
        | ragErrored h1 h2 => simp [h1] at hc
        | webDone h1 h2 => simp [h1] at hc
        | webErrored h1 h2 => simp [h1] at hc
        | finalizeCompleted h1 h2 h3 => exact ⟨h2, h3⟩
        | finalizeFailed h1 h2 => simp at hc
        | hardTimeout h1 h2 => simp at hc

/-- Witness for C7: the first adapter write is a step out of the
searching initial record, and a concrete record completed after the
three done-writes and the finalize transition has all sources
terminal. -/
theorem searchRecord_status_monotonic_witness :
    (initRecord.status = SearchStatus.searching ∧
      ((⟨SearchStatus.searching, SourceState.done, SourceState.pending,
          SourceState.pending⟩ : SearchRecord).status = initRecord.status ∨
        (⟨SearchStatus.searching, SourceState.done, SourceState.pending,
          SourceState.pending⟩ : SearchRecord).status = SearchStatus.completed ∨
        (⟨SearchStatus.searching, SourceState.done, SourceState.pending,
          SourceState.pending⟩ : SearchRecord).status = SearchStatus.failed)) ∧
    (allTerminal ⟨SearchStatus.completed, SourceState.done, SourceState.done,
        SourceState.done⟩ ∧
      someDone ⟨SearchStatus.completed, SourceState.done, SourceState.done,
        SourceState.done⟩) := by
  have s1 : searchStep initRecord
      ⟨SearchStatus.searching, SourceState.done, SourceState.pending,
        SourceState.pending⟩ :=
    searchStep.databaseDone initRecord rfl rfl
  have s2 : searchStep
      ⟨SearchStatus.searching, SourceState.done, SourceState.pending,
        SourceState.pending⟩
      ⟨SearchStatus.searching, SourceState.done, SourceState.done,
        SourceState.pending⟩ :=
    searchStep.ragDone _ rfl rfl
  have s3 : searchStep
      ⟨SearchStatus.searching, SourceState.done, SourceState.done,
        SourceState.pending⟩
      ⟨SearchStatus.searching, SourceState.done, SourceState.done,
        SourceState.done⟩ :=
    searchStep.webDone _ rfl rfl
  have s4 : searchStep
      ⟨SearchStatus.searching, SourceState.done, SourceState.done,
        SourceState.done⟩
      ⟨SearchStatus.completed, SourceState.done, SourceState.done,
        SourceState.done⟩ :=
    searchStep.finalizeCompleted _ rfl
      ⟨by simp [SourceState.terminal], by simp [SourceState.terminal],
        by simp [SourceState.terminal]⟩ (Or.inl rfl)
  have reach : reachableRecord
      ⟨SearchStatus.completed, SourceState.done, SourceState.done,
        SourceState.done⟩ :=
    Relation.ReflTransGen.tail
      (Relation.ReflTransGen.tail
        (Relation.ReflTransGen.tail
          (Relation.ReflTransGen.tail Relation.ReflTransGen.refl s1) s2) s3) s4
  exact ⟨searchRecord_status_monotonic.1 initRecord _ s1,
    searchRecord_status_monotonic.2 _ reach rfl⟩

/-- The capped partial-progress term is between 0 and 100 when added to
a completed-fraction base of at most 200/3. -/
lemma basePlusCapped_bounds (k x : Rat) (hk0 : 0 ≤ k) (hk : k ≤ 200 / 3) (hx : 0 ≤ x) :
    0 ≤ k + min x 100 / 3 ∧ k + min x 100 / 3 ≤ 100 := by
  have h0 : (0 : Rat) ≤ min x 100 := le_min hx (by norm_num)
  have h1 : min x 100 ≤ 100 := min_le_right x 100
  constructor <;> linarith

/-- The capped partial-progress term alone is between 0 and 100. -/
lemma cappedOnly_bounds (x : Rat) (hx : 0 ≤ x) :
    0 ≤ min x 100 / 3 ∧ min x 100 / 3 ≤ 100 := by
  have h0 : (0 : Rat) ≤ min x 100 := le_min hx (by norm_num)
  have h1 : min x 100 ≤ 100 := min_le_right x 100
  constructor <;> linarith

/-- C8: for every combination of per-source completion flags and every
elapsed time, the overall progress percentage lies in [0, 100]: the
partial contribution of the current source is capped, so completed plus
partial progress never exceeds 100 percent. -/
theorem progressPercentage_bounds :
    ∀ (p : SearchProgressInfo) (e : Nat),
      0 ≤ progressPercentage p e ∧ progressPercentage p e ≤ 100 := by
  intro p e
  rcases p with ⟨b1, b2, b3, t, c⟩
  cases b1 <;> cases b2 <;> cases b3 <;>
    simp [progressPercentage, updatedSources, searchSources, progressOf,
      getCurrentSourceIndex, completedSources, List.findIdx?] <;>
    first
    | exact basePlusCapped_bounds _ _ (by norm_num) (by norm_num) (by positivity)
    | exact cappedOnly_bounds _ (by positivity)

/-- Bookkeeping invariants of the polling loop: the number of status
queries is bounded by the remaining attempt budget, the waited
milliseconds are the interval times the number of waits, and a loop
entered below the budget performs at least one query. -/
lemma pollAux_basic (sr : Nat → ApiReply)
    (rr : Nat → Except String SolutionSearchResponse) (m iv : Nat) :
    ∀ n a, m - a ≤ n →
      (pollAux sr rr m iv a).queries ≤ m - a ∧
      (pollAux sr rr m iv a).waitMs = iv * (pollAux sr rr m iv a).waits ∧
      (a < m → 1 ≤ (pollAux sr rr m iv a).queries) := by
  intro n
  induction n with
  | zero =>
      intro a h
      have hna : ¬ a < m := by omega
      rw [pollAux]
      simp [hna]
  | succ k ih =>
      intro a h
      by_cases hlt : a < m
      · have hrec := ih (a + 1) (by omega)
        rw [pollAux]
        cases hsr : sr a with
        | ok s =>
            cases hst : s.status with
            | searching =>
                simp only [if_pos hlt, hsr, hst]
                refine ⟨by omega, ?_, fun _ => by omega⟩
                simp [Nat.mul_succ, hrec.2.1]
            | completed =>
                cases hrr : rr a with
                | ok resp =>
                    simp only [if_pos hlt, hsr, hst, hrr]
                    exact ⟨by omega, by simp, fun _ => by omega⟩
                | error e =>
                    by_cases hm : a = m - 1
                    · simp only [if_pos hlt, hsr, hst, hrr, if_pos hm]
                      exact ⟨by omega, by simp, fun _ => by omega⟩
                    · simp only [if_pos hlt, hsr, hst, hrr, if_neg hm]
                      refine ⟨by omega, ?_, fun _ => by omega⟩
                      simp [Nat.mul_succ, hrec.2.1]
            | failed =>
                by_cases hm : a = m - 1
                · simp only [if_pos hlt, hsr, hst, if_pos hm]
                  exact ⟨by omega, by simp, fun _ => by omega⟩
                · simp only [if_pos hlt, hsr, hst, if_neg hm]
                  refine ⟨by omega, ?_, fun _ => by omega⟩
                  simp [Nat.mul_succ, hrec.2.1]
        | transportError e =>
            by_cases hm : a = m - 1
            · simp only [if_pos hlt, hsr, if_pos hm]
              exact ⟨by omega, by simp, fun _ => by omega⟩
            · simp only [if_pos hlt, hsr, if_neg hm]
              refine ⟨by omega, ?_, fun _ => by omega⟩
              simp [Nat.mul_succ, hrec.2.1]
      · rw [pollAux]
        simp [hlt]

/-- When every status query reports `searching`, the loop exhausts its
attempt budget and throws the timeout error. -/
lemma pollAux_all_searching (sr : Nat → ApiReply)
    (rr : Nat → Except String SolutionSearchResponse) (m iv : Nat)
    (hs : ∀ i, ∃ st, sr i = ApiReply.ok st ∧ st.status = SearchStatus.searching) :
    ∀ n a, m - a ≤ n →
      (pollAux sr rr m iv a).outcome =
        PollOutcome.thrown "Search timeout - please try again." := by
  intro n
  induction n with
  | zero =>
      intro a h
      have hna : ¬ a < m := by omega
      rw [pollAux]
      simp [hna]
  | succ k ih =>
      intro a h
      by_cases hlt : a < m
      · obtain ⟨st, h1, h2⟩ := hs a
        rw [pollAux]
        simp only [if_pos hlt, h1, h2]
        exact ih (a + 1) (by omega)
      · rw [pollAux]
        simp [hlt]

/-- When every status query reports `failed`, the throw of
`"Search failed"` is swallowed by the catch block and retried until the
final attempt rethrows it. -/
lemma pollAux_all_failed (sr : Nat → ApiReply)
    (rr : Nat → Except String SolutionSearchResponse) (m iv : Nat)
    (hs : ∀ i, ∃ st, sr i = ApiReply.ok st ∧ st.status = SearchStatus.failed) :
    ∀ n a, a < m → m - a ≤ n →
      (pollAux sr rr m iv a).outcome = PollOutcome.thrown "Search failed" := by
  intro n
  induction n with
  | zero =>
      intro a ha h
      omega
  | succ k ih =>
      intro a ha h
      obtain ⟨st, h1, h2⟩ := hs a
      rw [pollAux]
      by_cases hm : a = m - 1
      · simp only [if_pos ha, h1, h2, if_pos hm]
      · simp only [if_pos ha, h1, h2, if_neg hm]
        exact ih (a + 1) (by omega) (by omega)

/-- C2: with default parameters `pollSearchStatus` queries the status
endpoint at most 30 times with a 2000 ms wait between attempts, retries
after a transient transport error instead of aborting immediately, and
throws the timeout error — distinct from any result response and from
the failed-search error — when the status is still `searching` at
budget exhaustion. -/
theorem pollSearchStatus_default_contract :
    ∀ (sr : Nat → ApiReply) (rr : Nat → Except String SolutionSearchResponse),
      (pollSearchStatus sr rr).queries ≤ 30 ∧
      (pollSearchStatus sr rr).waitMs = 2000 * (pollSearchStatus sr rr).waits ∧
      ((∀ i, ∃ st, sr i = ApiReply.ok st ∧ st.status = SearchStatus.searching) →
        (pollSearchStatus sr rr).outcome =
          PollOutcome.thrown "Search timeout - please try again.") ∧
      (∀ e, sr 0 = ApiReply.transportError e →
        2 ≤ (pollSearchStatus sr rr).queries) ∧
      (∀ resp, PollOutcome.thrown "Search timeout - please try again." ≠
        PollOutcome.success resp) ∧
      PollOutcome.thrown "Search timeout - please try again." ≠
        PollOutcome.thrown "Search failed" := by
  intro sr rr
  have hb := pollAux_basic sr rr 30 2000 30 0 (by omega)
  refine ⟨?_, ?_, ?_, ?_, by intro resp; simp, by simp⟩
  · simpa [pollSearchStatus, defaultMaxAttempts, defaultIntervalMs] using hb.1
  · simpa [pollSearchStatus, defaultMaxAttempts, defaultIntervalMs] using hb.2.1
  · intro hs
    have := pollAux_all_searching sr rr 30 2000 hs 30 0 (by omega)
    simpa [pollSearchStatus, defaultMaxAttempts, defaultIntervalMs] using this
  · intro e h0
    have h1 : 1 ≤ (pollAux sr rr 30 2000 1).queries :=
      (pollAux_basic sr rr 30 2000 29 1 (by omega)).2.2 (by omega)
    show 2 ≤ (pollAux sr rr defaultMaxAttempts defaultIntervalMs 0).queries
    rw [show defaultMaxAttempts = 30 from rfl, show defaultIntervalMs = 2000 from rfl]
    rw [pollAux]
    simp only [h0]
    norm_num
    omega

/-- Witness for C2: all-searching replies end in the timeout error, and
a transport error on the first attempt is followed by at least one more
status query. -/
theorem pollSearchStatus_default_contract_witness :
    (pollSearchStatus
        (fun _ => ApiReply.ok ⟨1, SearchStatus.searching, ⟨false, false, false, 3, 0⟩, none⟩)
        (fun _ => Except.error "boom")).outcome =
      PollOutcome.thrown "Search timeout - please try again." ∧
    2 ≤ (pollSearchStatus
        (fun i => if i = 0 then ApiReply.transportError "net"
          else ApiReply.ok ⟨1, SearchStatus.searching, ⟨false, false, false, 3, 0⟩, none⟩)
        (fun _ => Except.error "boom")).queries := by
  constructor
  · exact (pollSearchStatus_default_contract _ _).2.2.1 (fun i => ⟨_, rfl, rfl⟩)
  · exact (pollSearchStatus_default_contract _ _).2.2.2.1 "net" (by simp)

/-- C3: when every status report is `failed` the polling loop never
returns an aggregated result response and surfaces the error
`"Search failed"`, distinct from the polling-timeout error; the
SearchProgress polling tick surfaces `"Search failed"` on a failed
status as well. -/
theorem pollSearchStatus_failed_contract :
    ∀ (sr : Nat → ApiReply) (rr : Nat → Except String SolutionSearchResponse),
      ((∀ i, ∃ st, sr i = ApiReply.ok st ∧ st.status = SearchStatus.failed) →
        (pollSearchStatus sr rr).outcome = PollOutcome.thrown "Search failed" ∧
        (∀ resp, (pollSearchStatus sr rr).outcome ≠ PollOutcome.success resp)) ∧
      (PollOutcome.thrown "Search failed" ≠
        PollOutcome.thrown "Search timeout - please try again.") ∧
      (∀ s : SearchStatusResponse, s.status = SearchStatus.failed →
        pollStatusStep (Except.ok s) = ProgressAction.errorMsg "Search failed") := by
  intro sr rr
  refine ⟨?_, by simp, ?_⟩
  · intro hs
    have h := pollAux_all_failed sr rr 30 2000 hs 30 0 (by omega) (by omega)
    have h2 : (pollSearchStatus sr rr).outcome = PollOutcome.thrown "Search failed" := by
      simpa [pollSearchStatus, defaultMaxAttempts, defaultIntervalMs] using h
    refine ⟨h2, ?_⟩
    intro resp
    rw [h2]
    simp
  · intro s h
    simp [pollStatusStep, h]

/-- Witness for C3: with every status report `failed`, the polling loop
throws `"Search failed"`, and the SearchProgress tick reports the same
message for a concrete failed status response. -/
theorem pollSearchStatus_failed_contract_witness :
    (pollSearchStatus
        (fun _ => ApiReply.ok ⟨1, SearchStatus.failed, ⟨false, false, false, 3, 0⟩, none⟩)
        (fun _ => Except.error "boom")).outcome = PollOutcome.thrown "Search failed" ∧
    pollStatusStep
        (Except.ok ⟨1, SearchStatus.failed, ⟨false, false, false, 3, 0⟩, none⟩) =
      ProgressAction.errorMsg "Search failed" := by
  constructor
  · exact ((pollSearchStatus_failed_contract _
      (fun _ => Except.error "boom")).1 (fun i => ⟨_, rfl, rfl⟩)).1
  · exact (pollSearchStatus_failed_contract
      (fun _ => ApiReply.ok ⟨1, SearchStatus.failed, ⟨false, false, false, 3, 0⟩, none⟩)
      (fun _ => Except.error "boom")).2.2 _ rfl

/-- `validateFile` either accepts a file outright or rejects it with an
error message. -/
lemma validateFile_shape (f : JsFile) (ms : Nat) (allowed : List String) :
    (validateFile f ms allowed = (true, none) ∧ f.size ≤ ms ∧
      allowed.contains f.type = true) ∨
    (∃ e, validateFile f ms allowed = (false, some e)) := by
  unfold validateFile
  by_cases h1 : ms < f.size
  · right
    exact ⟨"File size exceeds maximum allowed size (" ++
      toString (ms / 1024 / 1024) ++ "MB)", by simp [h1]⟩
  · cases h2 : allowed.contains f.type
    · right
      exact ⟨"File type not allowed. Allowed types: " ++
        String.intercalate ", " allowed, by simp [h1, h2]⟩
    · left
      refine ⟨by simp [h1, h2], by omega, rfl⟩

/-- `validateFile` accepts exactly the files within the size limit whose
MIME type is allowed; a file of exactly the maximum size passes. -/
lemma validateFile_valid_iff (f : JsFile) (ms : Nat) (allowed : List String) :
    (validateFile f ms allowed).1 = true ↔
      (f.size ≤ ms ∧ allowed.contains f.type = true) := by
  unfold validateFile
  by_cases h1 : ms < f.size
  · simp [h1]
  · cases h2 : allowed.contains f.type
    · simp [h1, h2]
    · simp [h1, h2]
      omega

/-- A single validation step contributes no error exactly when the file
passes `validateFile`. -/
lemma fileErrorStep_nil_iff (ms : Nat) (allowed : List String) (f : JsFile) :
    fileErrorStep ms allowed [] f = [] ↔ (validateFile f ms allowed).1 = true := by
  rcases validateFile_shape f ms allowed with ⟨hp, _, _⟩ | ⟨e, hp⟩
  · simp [fileErrorStep, hp]
  · simp [fileErrorStep, hp]

/-- The error accumulation only appends to its accumulator. -/
lemma foldl_fileErrorStep_append (ms : Nat) (allowed : List String) :
    ∀ (files : List JsFile) (acc : List String),
      files.foldl (fileErrorStep ms allowed) acc =
        acc ++ files.foldl (fileErrorStep ms allowed) [] := by
  intro files
  induction files with
  | nil => simp
  | cons f fs ih =>
      intro acc
      rw [List.foldl_cons, List.foldl_cons, ih (fileErrorStep ms allowed acc f),
        ih (fileErrorStep ms allowed [] f), ← List.append_assoc]
      congr 1
      cases hv : validateFile f ms allowed with
      | mk v err => cases v <;> cases err <;> simp [fileErrorStep, hv]

/-- The collected error list is empty exactly when every file passes
`validateFile`. -/
lemma foldl_fileErrorStep_nil_iff (ms : Nat) (allowed : List String) :
    ∀ files : List JsFile,
      (files.foldl (fileErrorStep ms allowed) [] = [] ↔
        ∀ f ∈ files, (validateFile f ms allowed).1 = true) := by
  intro files
  induction files with
  | nil => simp
  | cons f fs ih =>
      rw [List.foldl_cons, foldl_fileErrorStep_append ms allowed fs _,
        List.append_eq_nil, fileErrorStep_nil_iff, ih, List.forall_mem_cons]

/-- C10: with the defaults, `validateFiles` accepts a list exactly when
it has at most 5 files and every file has size at most 10*1024*1024
bytes and an allowed MIME type; when the count exceeds 5, only the count
error is reported. -/
theorem validateFiles_default_spec :
    ∀ files : List JsFile,
      ((validateFiles files defaultMaxFiles defaultMaxSize defaultAllowedTypes).1 = true ↔
        (files.length ≤ 5 ∧
          ∀ f ∈ files, f.size ≤ 10 * 1024 * 1024 ∧ f.type ∈ defaultAllowedTypes)) ∧
      (5 < files.length →
        (validateFiles files defaultMaxFiles defaultMaxSize defaultAllowedTypes).2 =
          ["Maximum 5 files allowed"]) := by
  intro files
  by_cases hlen : 5 < files.length
  · have hcond : defaultMaxFiles < files.length := by simpa [defaultMaxFiles] using hlen
    constructor
    · rw [validateFiles, if_pos hcond]
      simp only [Bool.false_eq_true, false_iff]
      rintro ⟨h, -⟩
      omega
    · intro _
      rw [validateFiles, if_pos hcond]
      rfl
  · have hle : files.length ≤ 5 := by omega
    have hcond : ¬ defaultMaxFiles < files.length := by simpa [defaultMaxFiles] using hlen
    constructor
    · rw [validateFiles, if_neg hcond]
      simp only [beq_iff_eq, List.length_eq_zero]
      rw [foldl_fileErrorStep_nil_iff]
      constructor
      · intro h
        refine ⟨hle, fun f hf => ?_⟩
        have hv := (validateFile_valid_iff f defaultMaxSize defaultAllowedTypes).mp (h f hf)
        refine ⟨by simpa [defaultMaxSize] using hv.1, ?_⟩
        simpa [List.elem_iff] using hv.2
      · rintro ⟨-, h⟩
        intro f hf
        rw [validateFile_valid_iff]
        obtain ⟨hs, ht⟩ := h f hf
        exact ⟨by simpa [defaultMaxSize] using hs, by simpa [List.elem_iff] using ht⟩
    · intro h
      omega

/-- Witness for C10: a single PNG of exactly 10*1024*1024 bytes is
accepted, and six files yield exactly the count error. -/
theorem validateFiles_default_spec_witness :
    (validateFiles [⟨"a.png", 10 * 1024 * 1024, "image/png"⟩]
        defaultMaxFiles defaultMaxSize defaultAllowedTypes).1 = true ∧
    (validateFiles
        [⟨"a.png", 1, "image/png"⟩, ⟨"b.png", 1, "image/png"⟩, ⟨"c.png", 1, "image/png"⟩,
         ⟨"d.png", 1, "image/png"⟩, ⟨"e.png", 1, "image/png"⟩, ⟨"f.png", 1, "image/png"⟩]
        defaultMaxFiles defaultMaxSize defaultAllowedTypes).2 =
      ["Maximum 5 files allowed"] := by
  constructor
  · refine (validateFiles_default_spec [⟨"a.png", 10 * 1024 * 1024, "image/png"⟩]).1.mpr
      ⟨by decide, ?_⟩
    intro f hf
    simp only [List.mem_singleton] at hf
    subst hf
    exact ⟨by norm_num, by decide⟩
  · exact (validateFiles_default_spec _).2 (by decide)
